import Mathlib

/-!
Shallow embedding of the quality-validation and AI-orchestration core of the
repository (server/lib/quality-validation aka codeValidation, and
server/lib/aiQualityEnhancement), together with theorems settling the frozen
claims about it.

Conventions of the embedding:
* JavaScript strings are Lean `String`s; `String.prototype.includes` and the
  handful of regular expressions used by the validators are implemented as
  explicit scanners over the character list, reproducing the semantics of the
  concrete patterns appearing in the source (`/<img[^>]*>/g`,
  `/<input[^>]*>/g`, `/<label[^>]*>/g`, `/<button[^>]*>/g`, `/onClick.*?=/g`,
  `/\w+=\x7b(.*?)=>/g`, `/=\s*\x7b[^\x7d]*\x7d/g`).  The scanners use a fuel
  argument (initialised with the length of the input) so that they are
  structurally recursive and hence kernel-computable.
* JavaScript numbers are modelled exactly: integer-valued score arithmetic as
  `Int`, the weighted `Math.round` composite over `ℚ` (`Math.round x` is
  `⌊x + 1/2⌋` for every finite IEEE value, which this model adopts as the
  exact semantics), and the ledger arithmetic of aiQualityEnhancement over
  `JSNum`, a rational-carrying model of JS numbers that also tracks
  `Infinity`, `-Infinity` and `NaN` (the source divides by the key count of a
  possibly empty object, so these values are reachable and observable).
* The TypeScript compiler invoked by `validateTypeScript` is an external
  library; it is modelled as an oracle `String → Except String (List
  TSDiagnostic)` (either an exception carrying a message, or the list of
  pre-emit diagnostics).  All theorems about `validateTypeScript` and
  `validateGeneratedCode` are universally quantified over this oracle.
* Mutation of the provider ledger / strategy catalog is modelled by explicit
  state passing: the update functions return the updated list.
-/

/-! ## Shared schema (shared/schema.ts) -/

inductive Severity where
  | error
  | warning
  | info
deriving DecidableEq

inductive ErrorType where
  | typescript
  | eslint
  | accessibility
deriving DecidableEq

structure ValidationError where
  type : ErrorType
  message : String
  severity : Severity
  line : Option Nat := none
  column : Option Nat := none
deriving DecidableEq

structure ComponentQualityScore where
  codeQuality : Int
  accessibility : Int
  designConsistency : Int
  performance : Int
  overall : Int
deriving DecidableEq

/-! ## Exact model of the JavaScript numbers used by the ledger arithmetic -/

/-- JavaScript number model for the aiQualityEnhancement arithmetic: a
rational (every value produced there is exact decimal arithmetic), or one of
the IEEE special values `Infinity`, `-Infinity`, `NaN` which the source can
produce by dividing by the length of an empty key set. -/
inductive JSNum where
  | nan
  | inf
  | ninf
  | num (q : ℚ)
deriving DecidableEq

namespace JSNum

def add : JSNum → JSNum → JSNum
  | nan, _ => nan
  | _, nan => nan
  | inf, ninf => nan
  | ninf, inf => nan
  | inf, _ => inf
  | _, inf => inf
  | ninf, _ => ninf
  | _, ninf => ninf
  | num a, num b => num (a + b)

def neg : JSNum → JSNum
  | nan => nan
  | inf => ninf
  | ninf => inf
  | num a => num (-a)

def sub (a b : JSNum) : JSNum := add a (neg b)

def mul : JSNum → JSNum → JSNum
  | nan, _ => nan
  | _, nan => nan
  | inf, inf => inf
  | inf, ninf => ninf
  | ninf, inf => ninf
  | ninf, ninf => inf
  | inf, num b => if b = 0 then nan else if 0 < b then inf else ninf
  | num a, inf => if a = 0 then nan else if 0 < a then inf else ninf
  | ninf, num b => if b = 0 then nan else if 0 < b then ninf else inf
  | num a, ninf => if a = 0 then nan else if 0 < a then ninf else inf
  | num a, num b => num (a * b)

def div : JSNum → JSNum → JSNum
  | nan, _ => nan
  | _, nan => nan
  | inf, inf => nan
  | inf, ninf => nan
  | ninf, inf => nan
  | ninf, ninf => nan
  | inf, num b => if 0 ≤ b then inf else ninf
  | ninf, num b => if 0 ≤ b then ninf else inf
  | num _, inf => num 0
  | num _, ninf => num 0
  | num a, num b =>
      if b = 0 then (if a = 0 then nan else if 0 < a then inf else ninf)
      else num (a / b)

instance : Add JSNum := ⟨add⟩
instance : Sub JSNum := ⟨sub⟩
instance : Mul JSNum := ⟨mul⟩
instance : Div JSNum := ⟨div⟩

/-- `Math.round`: `⌊x + 1/2⌋` on finite values, identity on the specials. -/
def jsRound : JSNum → JSNum
  | num q => num ((⌊q + 1 / 2⌋ : ℤ) : ℚ)
  | x => x

/-- `Math.max` (binary): returns `NaN` if either argument is `NaN`. -/
def jsMax : JSNum → JSNum → JSNum
  | nan, _ => nan
  | _, nan => nan
  | inf, _ => inf
  | _, inf => inf
  | ninf, b => b
  | a, ninf => a
  | num a, num b => num (max a b)

/-- JavaScript truthiness of a number: `0` and `NaN` are falsy. -/
def truthy : JSNum → Bool
  | nan => false
  | inf => true
  | ninf => true
  | num q => decide (q ≠ 0)

/-- JavaScript `>` on numbers: false whenever `NaN` is involved. -/
def gtb : JSNum → JSNum → Bool
  | nan, _ => false
  | _, nan => false
  | inf, inf => false
  | inf, _ => true
  | _, inf => false
  | ninf, _ => false
  | num _, ninf => true
  | num a, num b => decide (b < a)

/-- The rational carried by a finite `JSNum` (0 on the special values); used
only to state theorems under finiteness hypotheses. -/
def ratOf : JSNum → ℚ
  | num q => q
  | _ => 0

end JSNum

/-- `x || d` on an optionally present JS number (property read of an object):
the fallback is taken when the property is absent or its value is falsy. -/
def jsOr (o : Option JSNum) (d : JSNum) : JSNum :=
  match o with
  | some v => if v.truthy then v else d
  | none => d

/-! ## String scanners (the regular expressions of the validators) -/

/-- Does `pat` occur at the head of `l`? -/
def leadsWith : List Char → List Char → Bool
  | [], _ => true
  | _ :: _, [] => false
  | a :: pa, b :: pb => a == b && leadsWith pa pb

/-- `String.prototype.includes`, on character lists. -/
def subList (pat : List Char) : List Char → Bool
  | [] => pat.isEmpty
  | l@(_ :: rest) => leadsWith pat l || subList pat rest

/-- `code.includes(pat)`. -/
def hasSubstr (s pat : String) : Bool := subList pat.toList s.toList

/-- Split at the first occurrence of `ch`: returns the segment before it and
the remainder after it. -/
def splitAtChar (ch : Char) : List Char → Option (List Char × List Char)
  | [] => none
  | c :: rest =>
      if c = ch then some ([], rest)
      else (splitAtChar ch rest).map (fun p => (c :: p.1, p.2))

/-- Matches of `/<tag[^>]*>/g` (used with `tag` one of `<img`, `<input`,
`<label`, `<button`): a match starts at a literal occurrence of `tag`, the
greedy `[^>]*` runs to the first `>`, and global scanning resumes after that
`>`.  `fuel` is initialised with the length of the input; every recursive
call strictly shortens the list, so the fuel never runs out. -/
def scanTagAux (tag : List Char) : Nat → List Char → List (List Char)
  | 0, _ => []
  | _ + 1, [] => []
  | fuel + 1, c :: rest =>
      if leadsWith tag (c :: rest) then
        match splitAtChar '>' ((c :: rest).drop tag.length) with
        | some (body, rest') => (tag ++ body ++ ['>']) :: scanTagAux tag fuel rest'
        | none => scanTagAux tag fuel rest
      else scanTagAux tag fuel rest

def scanTagMatches (tag : String) (code : String) : List (List Char) :=
  scanTagAux tag.toList code.toList.length code.toList

def countTagMatches (tag : String) (code : String) : Nat :=
  (scanTagMatches tag code).length

/-- Scan for the first `target` character, failing on a line terminator
(the regex `.` does not match `\n` or `\r`); returns the remainder after the
target. -/
def findCharStopNl (target : Char) : List Char → Option (List Char)
  | [] => none
  | c :: rest =>
      if c = target then some rest
      else if c = '\n' ∨ c = '\r' then none
      else findCharStopNl target rest

/-- Number of matches of `/onClick.*?=/g`: an occurrence of `onClick`
followed (lazily, within the same line) by `=`; scanning resumes after the
`=` of a match, and after the failed occurrence otherwise. -/
def countOnClickEqAux : Nat → List Char → Nat
  | 0, _ => 0
  | _ + 1, [] => 0
  | fuel + 1, c :: rest =>
      if leadsWith "onClick".toList (c :: rest) then
        match findCharStopNl '=' ((c :: rest).drop 7) with
        | some rest' => countOnClickEqAux fuel rest' + 1
        | none => countOnClickEqAux fuel rest
      else countOnClickEqAux fuel rest

def countOnClickEq (code : String) : Nat :=
  countOnClickEqAux code.toList.length code.toList

/-- JS `\w`: ASCII letters, digits and underscore. -/
def isWordChar (c : Char) : Bool := c.isAlphanum || c == '_'

/-- Scan lazily for the two-character sequence `=>`, failing on a line
terminator; returns the remainder after the arrow. -/
def findArrowStopNl : List Char → Option (List Char)
  | [] => none
  | l@(c :: rest) =>
      if leadsWith "=>".toList l then some (l.drop 2)
      else if c = '\n' ∨ c = '\r' then none
      else findArrowStopNl rest

/-- Number of matches of the inline-handler pattern `/\w+=\x7b(.*?)=>/g`.
Since `=` is not a word character, the greedy `\w+` must consume a maximal
word run, so a match starts at the first character of a word run that is
immediately followed by `=\x7b` and (within the line) by `=>`. -/
def countInlineHandlersAux : Nat → List Char → Nat
  | 0, _ => 0
  | _ + 1, [] => 0
  | fuel + 1, c :: rest =>
      if isWordChar c then
        match (c :: rest).dropWhile isWordChar with
        | '=' :: '{' :: r2 =>
            match findArrowStopNl r2 with
            | some r3 => countInlineHandlersAux fuel r3 + 1
            | none => countInlineHandlersAux fuel ('=' :: '{' :: r2)
        | after => countInlineHandlersAux fuel after
      else countInlineHandlersAux fuel rest

def countInlineHandlers (code : String) : Nat :=
  countInlineHandlersAux code.toList.length code.toList

/-- JS `\s` (the whitespace characters relevant to source code). -/
def isJsWs (c : Char) : Bool :=
  c = ' ' || c = '\t' || c = '\n' || c = '\r' || c = '\x0b' || c = '\x0c'

/-- Number of matches of the inline-object pattern `/=\s*\x7b[^\x7d]*\x7d/g`:
`=`, then greedy whitespace, then `\x7b`, then everything up to the first
`\x7d`. -/
def countInlineObjectsAux : Nat → List Char → Nat
  | 0, _ => 0
  | _ + 1, [] => 0
  | fuel + 1, c :: rest =>
      if c = '=' then
        match rest.dropWhile isJsWs with
        | '{' :: r2 =>
            match splitAtChar '}' r2 with
            | some (_, r3) => countInlineObjectsAux fuel r3 + 1
            | none => countInlineObjectsAux fuel rest
        | _ => countInlineObjectsAux fuel rest
      else countInlineObjectsAux fuel rest

def countInlineObjects (code : String) : Nat :=
  countInlineObjectsAux code.toList.length code.toList

/-- `code.split('\n').length`. -/
def countLines (code : String) : Nat :=
  code.toList.countP (fun c => c == '\n') + 1

/-! ## codeValidation module (server/lib/quality-validation) -/

namespace CodeValidation

/-- A pre-emit diagnostic produced by the TypeScript compiler:
`hasLocation` models `diagnostic.file && diagnostic.start !== undefined`
(only located diagnostics are converted); `line`/`column` are the 0-based
position; `isError` is `category === DiagnosticCategory.Error`. -/
structure TSDiagnostic where
  hasLocation : Bool
  line : Nat
  column : Nat
  message : String
  isError : Bool
deriving DecidableEq

/-- The TypeScript compiler as an external collaborator: for a given code
string it either throws (an exception message) or yields the pre-emit
diagnostics of the wrapped source file. -/
abbrev TSOracle := String → Except String (List TSDiagnostic)

/-- The `errors` array as accumulated inside `validateTypeScript` before the
final filtering: the converted located diagnostics, or, on an exception, the
single synthetic error carrying the exception message. -/
def collectedTSErrors (oracle : TSOracle) (code : String) : List ValidationError :=
  match oracle code with
  | .ok diagnostics =>
      (diagnostics.filter (fun d => d.hasLocation)).map (fun d =>
        { type := .typescript
          message := d.message
          line := some (d.line + 1)
          column := some (d.column + 1)
          severity := if d.isError then .error else .warning })
  | .error msg =>
      [{ type := .typescript
         message := "Compilation failed: " ++ msg
         severity := .error }]

structure TSValidationResult where
  errors : List ValidationError
  isValid : Bool
deriving DecidableEq

/-- `validateTypeScript`: collect diagnostics (never letting an exception
escape), return only the error-severity ones, and set `isValid` iff there is
no error-severity entry. -/
def validateTypeScript (oracle : TSOracle) (code : String) : TSValidationResult :=
  let errors := collectedTSErrors oracle code
  { errors := errors.filter (fun e => e.severity == .error)
    isValid := (errors.filter (fun e => e.severity == .error)).length == 0 }

/-- `validateReactBestPractices`. -/
def validateReactBestPractices (code : String) : List ValidationError :=
  (if hasSubstr code "document.getElementById" || hasSubstr code "document.querySelector" then
    [{ type := .eslint
       message := "Avoid direct DOM manipulation in React components. Use refs or state management instead."
       severity := .warning }]
  else []) ++
  (if hasSubstr code ".map(" && !hasSubstr code "key=" then
    [{ type := .eslint
       message := "Missing key prop in list items. Each child in a list should have a unique key prop."
       severity := .warning }]
  else []) ++
  (if countInlineHandlers code > 3 then
    [{ type := .eslint
       message := "Consider extracting inline event handlers to improve performance."
       severity := .info }]
  else [])

/-- The `<img>`-tag matches that lack `alt=`. -/
def imgsWithoutAlt (code : String) : List (List Char) :=
  (scanTagMatches "<img" code).filter (fun m => !subList "alt=".toList m)

def countImgNoAlt (code : String) : Nat := (imgsWithoutAlt code).length

/-- Input tags outnumber label tags. -/
def inputOverLabel (code : String) : Bool :=
  countTagMatches "<input" code > countTagMatches "<label" code

/-- A `<div` without any of the semantic elements checked by the source. -/
def missingSemantic (code : String) : Bool :=
  hasSubstr code "<div" && !hasSubstr code "<main" && !hasSubstr code "<section"
    && !hasSubstr code "<article"

/-- `onClick` handler matches outnumber `<button>` tags. -/
def clickWithoutButton (code : String) : Bool :=
  countOnClickEq code > countTagMatches "<button" code

def imgAltError : ValidationError :=
  { type := .accessibility
    message := "Image elements must have alt text for accessibility."
    severity := .error }

def formLabelError : ValidationError :=
  { type := .accessibility
    message := "Form inputs should be associated with labels for accessibility."
    severity := .warning }

def semanticInfoError : ValidationError :=
  { type := .accessibility
    message := "Consider using semantic HTML elements (main, section, article) instead of div for better accessibility."
    severity := .info }

def buttonWarnError : ValidationError :=
  { type := .accessibility
    message := "Use button elements for clickable actions instead of divs with onClick handlers."
    severity := .warning }

structure AccessibilityResult where
  errors : List ValidationError
  score : Int
deriving DecidableEq

/-- `validateAccessibility` (the codeValidation module's version): one error
and −15 per `<img>` without `alt=`; −10 once if inputs outnumber labels; −5
once for the missing-semantic-HTML heuristic; −10 once if `onClick` matches
outnumber `<button>` tags; final score floored at 0. -/
def validateAccessibility (code : String) : AccessibilityResult :=
  { errors :=
      (imgsWithoutAlt code).map (fun _ => imgAltError) ++
      (if inputOverLabel code then [formLabelError] else []) ++
      (if missingSemantic code then [semanticInfoError] else []) ++
      (if clickWithoutButton code then [buttonWarnError] else [])
    score :=
      max 0 (100 - 15 * (countImgNoAlt code : Int)
        - (if inputOverLabel code then 10 else 0)
        - (if missingSemantic code then 5 else 0)
        - (if clickWithoutButton code then 10 else 0)) }

/-- `calculateCodeQuality`. -/
def calculateCodeQuality (code : String) (tsValidation : TSValidationResult) : Int :=
  let s0 : Int := 100
  let s1 := if !tsValidation.isValid then s0 - (tsValidation.errors.length : Int) * 10 else s0
  let lines := countLines code
  let s2 := if lines > 200 then s1 - 15 else if lines > 100 then s1 - 5 else s1
  let reactErrors := validateReactBestPractices code
  let s3 := s2 - ((reactErrors.filter (fun e => e.severity == .error)).length : Int) * 10
    - ((reactErrors.filter (fun e => e.severity == .warning)).length : Int) * 5
  let s4 := if !hasSubstr code "function " && !hasSubstr code "const " then s3 - 10 else s3
  let s5 := if !hasSubstr code "render(" then s4 - 5 else s4
  max 0 (min 100 s5)

/-- `calculateDesignConsistency`. -/
def calculateDesignConsistency (code : String) : Int :=
  let s0 : Int := 100
  let s1 := if !hasSubstr code "className=" then s0 - 20 else s0
  let hasSpacing := hasSubstr code "p-" || hasSubstr code "m-" || hasSubstr code "px-"
    || hasSubstr code "py-" || hasSubstr code "mx-" || hasSubstr code "my-"
  let s2 := if !hasSpacing then s1 - 15 else s1
  let hasColors := hasSubstr code "bg-" || hasSubstr code "text-" || hasSubstr code "border-"
  let s3 := if !hasColors then s2 - 10 else s2
  let hasResponsive := hasSubstr code "sm:" || hasSubstr code "md:" || hasSubstr code "lg:"
    || hasSubstr code "xl:"
  let s4 := if !hasResponsive then s3 - 10 else s3
  let s5 := if !hasSubstr code "rounded" && !hasSubstr code "shadow" then s4 - 10 else s4
  max 0 s5

/-- `calculatePerformance`. -/
def calculatePerformance (code : String) : Int :=
  let s0 : Int := 100
  let s1 := if hasSubstr code "JSON.parse" || hasSubstr code "JSON.stringify" then s0 - 15 else s0
  let s2 := if countInlineObjects code > 3 then s1 - 10 else s1
  let s3 := if hasSubstr code "sort(" || hasSubstr code "filter(" || hasSubstr code "reduce(" then
    s2 - 5 else s2
  let s4 := if hasSubstr code "useMemo" || hasSubstr code "useCallback" then s3 + 10 else s3
  max 0 (min 100 s4)

/-- `Math.round` over the exact rational value of the weighted composite. -/
def jsRoundQ (q : ℚ) : Int := ⌊q + 1 / 2⌋

structure ValidationResult where
  isValid : Bool
  errors : List ValidationError
  qualityScore : ComponentQualityScore
deriving DecidableEq

/-- `validateGeneratedCode`: run the validators, merge the errors, compute
the four dimension scores and the weighted overall. -/
def validateGeneratedCode (oracle : TSOracle) (code : String) : ValidationResult :=
  let tsValidation := validateTypeScript oracle code
  let reactErrors := validateReactBestPractices code
  let accessibilityValidation := validateAccessibility code
  let errors := tsValidation.errors ++ reactErrors ++ accessibilityValidation.errors
  let codeQuality := calculateCodeQuality code tsValidation
  let accessibility := accessibilityValidation.score
  let designConsistency := calculateDesignConsistency code
  let performance := calculatePerformance code
  let overall := jsRoundQ ((codeQuality : ℚ) * 0.4 + (accessibility : ℚ) * 0.3
    + (designConsistency : ℚ) * 0.2 + (performance : ℚ) * 0.1)
  { isValid := tsValidation.isValid
      && ((errors.filter (fun e => e.severity == .error)).length == 0)
    errors := errors
    qualityScore :=
      { codeQuality := codeQuality
        accessibility := accessibility
        designConsistency := designConsistency
        performance := performance
        overall := overall } }

end CodeValidation

/-! ## aiQualityEnhancement module (server/lib/aiQualityEnhancement) -/

namespace AIQualityEnhancement

inductive Provider where
  | vercel
  | openai
  | anthropic
deriving DecidableEq

structure QualityMetrics where
  avgQualityScore : JSNum
  avgCodeQuality : JSNum
  avgAccessibility : JSNum
  avgDesignConsistency : JSNum
  avgPerformance : JSNum
deriving DecidableEq

/-- `AIProviderPerformance` ledger entry.  `lastUpdated` (a `Date`, never read
by the logic) is omitted.  The two string-keyed objects are modelled as
insertion-ordered association lists, matching JS object key order. -/
structure AIProviderPerformance where
  provider : Provider
  qualityMetrics : QualityMetrics
  componentTypePerformance : List (String × JSNum)
  complexityPerformance : List (String × JSNum)
  generationCount : Nat
deriving DecidableEq

/-- Property read `m[k]` of a string-keyed object. -/
def objGet (m : List (String × JSNum)) (k : String) : Option JSNum :=
  (m.find? (fun p => p.1 == k)).map (fun p => p.2)

/-- Property write `m[k] = v`: overwrites in place, or appends a new key. -/
def objSet (m : List (String × JSNum)) (k : String) (v : JSNum) :
    List (String × JSNum) :=
  if m.any (fun p => p.1 == k) then
    m.map (fun p => if p.1 == k then (k, v) else p)
  else m ++ [(k, v)]

/-- `QualityHistory` (the `createdAt` date is omitted). -/
structure QualityHistory where
  componentId : String
  qualityScore : ComponentQualityScore
  promptStrategy : String
  aiProvider : String
  componentType : String
  userRating : Option ℚ
deriving DecidableEq

structure PriorityWeights where
  codeQuality : ℚ
  accessibility : ℚ
  designConsistency : ℚ
  performance : ℚ
deriving DecidableEq

structure UserQualityPreferences where
  priorityWeights : PriorityWeights
  minAcceptableScore : ℚ
deriving DecidableEq

structure GenerationContext where
  userPrompt : String
  componentType : String
  complexityLevel : String
  previousAttempts : List QualityHistory
  userQualityPreferences : UserQualityPreferences
deriving DecidableEq

structure SuccessMetrics where
  avgQualityScore : ℚ
  avgUserRating : ℚ
  generationCount : Nat
  successRate : ℚ
deriving DecidableEq

/-- `PromptStrategy`.  `systemPromptModifier` (a multi-line prompt text) and
`userPromptEnhancer` (a text-producing function) are omitted: they are never
read by the selection or performance-tracking logic modelled here. -/
structure PromptStrategy where
  id : String
  name : String
  description : String
  targetComponentTypes : List String
  successMetrics : SuccessMetrics
deriving DecidableEq

def zeroMetrics : SuccessMetrics :=
  { avgQualityScore := 0, avgUserRating := 0, generationCount := 0, successRate := 0 }

def qualityFirstStrategy : PromptStrategy :=
  { id := "quality-first", name := "Quality-First Strategy",
    description := "Emphasizes code quality and best practices above all else",
    targetComponentTypes := ["interactive", "form", "data-visualization"],
    successMetrics := zeroMetrics }

def accessibilityFocusedStrategy : PromptStrategy :=
  { id := "accessibility-focused", name := "Accessibility-Focused Strategy",
    description := "Prioritizes WCAG compliance and inclusive design",
    targetComponentTypes := ["form", "navigation", "interactive"],
    successMetrics := zeroMetrics }

def designConsistencyStrategy : PromptStrategy :=
  { id := "design-consistency", name := "Design Consistency Strategy",
    description := "Focuses on visual coherence and design system adherence",
    targetComponentTypes := ["layout", "navigation", "display"],
    successMetrics := zeroMetrics }

def performanceOptimizedStrategy : PromptStrategy :=
  { id := "performance-optimized", name := "Performance-Optimized Strategy",
    description := "Emphasizes rendering performance and optimization",
    targetComponentTypes := ["data-visualization", "interactive", "layout"],
    successMetrics := zeroMetrics }

def userExperienceStrategy : PromptStrategy :=
  { id := "user-experience", name := "User Experience Strategy",
    description := "Balances all quality aspects for optimal user satisfaction",
    targetComponentTypes := ["interactive", "form", "navigation", "display"],
    successMetrics := zeroMetrics }

/-- The fixed five-strategy catalog. -/
def PROMPT_STRATEGIES : List PromptStrategy :=
  [qualityFirstStrategy, accessibilityFocusedStrategy, designConsistencyStrategy,
   performanceOptimizedStrategy, userExperienceStrategy]

inductive Dimension where
  | codeQuality
  | accessibility
  | designConsistency
  | performance
deriving DecidableEq

def dimScore (q : ComponentQualityScore) : Dimension → Int
  | .codeQuality => q.codeQuality
  | .accessibility => q.accessibility
  | .designConsistency => q.designConsistency
  | .performance => q.performance

/-- `Object.keys(scores).reduce((a, b) => scores[a] < scores[b] ? a : b)`:
the running key is kept only when strictly smaller, so on ties the later key
in the fixed insertion order (codeQuality, accessibility, designConsistency,
performance) wins. -/
def lowestDimension (q : ComponentQualityScore) : Dimension :=
  [Dimension.accessibility, Dimension.designConsistency, Dimension.performance].foldl
    (fun a b => if dimScore q a < dimScore q b then a else b) Dimension.codeQuality

def priorityStrategyMap : Dimension → String
  | .codeQuality => "quality-first"
  | .accessibility => "accessibility-focused"
  | .designConsistency => "design-consistency"
  | .performance => "performance-optimized"

def weightOf (w : PriorityWeights) : Dimension → ℚ
  | .codeQuality => w.codeQuality
  | .accessibility => w.accessibility
  | .designConsistency => w.designConsistency
  | .performance => w.performance

/-- `Object.keys(priorityWeights).reduce((a, b) => w[a] > w[b] ? a : b)`:
on ties the later key wins. -/
def topPriority (w : PriorityWeights) : Dimension :=
  [Dimension.accessibility, Dimension.designConsistency, Dimension.performance].foldl
    (fun a b => if weightOf w a > weightOf w b then a else b) Dimension.codeQuality

def strategyIsSuitable (context : GenerationContext) (s : PromptStrategy) : Bool :=
  s.targetComponentTypes.contains context.componentType
    || s.targetComponentTypes.contains "all"

/-- `selectOptimalPromptStrategy`.  Returns `none` exactly where the source
would return JavaScript `undefined` (empty catalog on the empty-suitable-set
fallback path). -/
def selectOptimalPromptStrategy (context : GenerationContext)
    (strategies : List PromptStrategy) : Option PromptStrategy :=
  let suitableStrategies := strategies.filter (strategyIsSuitable context)
  if suitableStrategies.isEmpty then
    match strategies.find? (fun s => s.id == "user-experience") with
    | some s => some s
    | none => strategies.head?
  else
    let attemptChoice : Option PromptStrategy :=
      match context.previousAttempts.getLast? with
      | none => none
      | some lastAttempt =>
          if (lastAttempt.qualityScore.overall : ℚ)
              < context.userQualityPreferences.minAcceptableScore then
            let alternativeStrategies :=
              suitableStrategies.filter (fun s => s.id != lastAttempt.promptStrategy)
            if alternativeStrategies.isEmpty then none
            else
              match strategies.find? (fun s =>
                  s.id == priorityStrategyMap (lowestDimension lastAttempt.qualityScore)) with
              | some s => some s
              | none => alternativeStrategies.head?
          else none
    match attemptChoice with
    | some s => some s
    | none =>
        match strategies.find? (fun s =>
            s.id == priorityStrategyMap
              (topPriority context.userQualityPreferences.priorityWeights)) with
        | some s =>
            if strategyIsSuitable context s then some s
            else
              match strategies.find? (fun s => s.id == "user-experience") with
              | some t => some t
              | none => suitableStrategies.head?
        | none =>
            match strategies.find? (fun s => s.id == "user-experience") with
            | some t => some t
            | none => suitableStrategies.head?

/-- The ranking key of the provider sort comparator:
`complexityPerformance[level] || (componentTypePerformance[type] || avgQualityScore)`. -/
def sortKey (context : GenerationContext) (p : AIProviderPerformance) : JSNum :=
  let typeScore := jsOr (objGet p.componentTypePerformance context.componentType)
    p.qualityMetrics.avgQualityScore
  jsOr (objGet p.complexityPerformance context.complexityLevel) typeScore

/-- `a` sorts no later than `b` under the comparator
`(a, b) => bComplexityScore - aComplexityScore` (a `NaN` comparator value is
treated as 0, i.e. "equal"). -/
def sortLe (context : GenerationContext) (a b : AIProviderPerformance) : Bool :=
  match sortKey context b - sortKey context a with
  | .num q => decide (q ≤ 0)
  | .nan => true
  | .inf => false
  | .ninf => true

/-- Stable insertion: `x` goes after every element it must follow and before
the first element it may precede. -/
def insertSorted (le : α → α → Bool) (x : α) : List α → List α
  | [] => [x]
  | y :: ys => if le x y then x :: y :: ys else y :: insertSorted le x ys

/-- Stable sort (`Array.prototype.sort` is stable). -/
def sortedBy (le : α → α → Bool) : List α → List α
  | [] => []
  | x :: xs => insertSorted le x (sortedBy le xs)

/-- `reduce((best, current) => current.avg > best.avg ? current : best)`:
keeps the earlier entry on ties (strict `>`). -/
def reduceBest : AIProviderPerformance → List AIProviderPerformance →
    AIProviderPerformance
  | best, [] => best
  | best, current :: rest =>
      reduceBest
        (if JSNum.gtb current.qualityMetrics.avgQualityScore
            best.qualityMetrics.avgQualityScore then current else best) rest

/-- `selectOptimalAIProvider`: default on an empty ledger; otherwise sort the
cold-start survivors (`generationCount > 5`) by the comparator and take the
top; if no survivor, fall back to the highest overall average via `reduce`. -/
def selectOptimalAIProvider (context : GenerationContext)
    (providerPerformance : List AIProviderPerformance) : Provider :=
  match providerPerformance with
  | [] => Provider.vercel
  | first :: rest =>
      match sortedBy (sortLe context)
          ((first :: rest).filter (fun p => 5 < p.generationCount)) with
      | p :: _ => p.provider
      | [] => (reduceBest first rest).provider

def freshEntry (provider : Provider) : AIProviderPerformance :=
  { provider := provider
    qualityMetrics :=
      { avgQualityScore := .num 0, avgCodeQuality := .num 0, avgAccessibility := .num 0
        avgDesignConsistency := .num 0, avgPerformance := .num 0 }
    componentTypePerformance := []
    complexityPerformance := []
    generationCount := 0 }

/-- One rolling-average step `(old·count + v) / newCount`. -/
def updAvg (old : JSNum) (count newCount : Nat) (v : Int) : JSNum :=
  (old * JSNum.num (count : ℚ) + JSNum.num (v : ℚ)) / JSNum.num (newCount : ℚ)

/-- The mutation `updateProviderPerformance` performs on the found (or
freshly created) entry.  Note the per-map `typeCount`/`complexityCount`
heuristic: `Math.max(1, Math.round(newCount / Object.keys(map).length))`,
where the key count is read before the assignment (so it is 0 for a fresh
entry, making the division yield `Infinity` and the stored value `NaN`). -/
def updateEntry (componentType complexityLevel : String)
    (qualityScore : ComponentQualityScore) (e : AIProviderPerformance) :
    AIProviderPerformance :=
  let newCount := e.generationCount + 1
  let m := e.qualityMetrics
  let currentTypeScore := jsOr (objGet e.componentTypePerformance componentType) (.num 0)
  let typeCount := JSNum.jsMax (.num 1)
    (JSNum.jsRound (JSNum.num (newCount : ℚ)
      / JSNum.num (e.componentTypePerformance.length : ℚ)))
  let typeVal := (currentTypeScore * (typeCount - .num 1)
    + .num (qualityScore.overall : ℚ)) / typeCount
  let currentComplexityScore := jsOr (objGet e.complexityPerformance complexityLevel) (.num 0)
  let complexityCount := JSNum.jsMax (.num 1)
    (JSNum.jsRound (JSNum.num (newCount : ℚ)
      / JSNum.num (e.complexityPerformance.length : ℚ)))
  let complexityVal := (currentComplexityScore * (complexityCount - .num 1)
    + .num (qualityScore.overall : ℚ)) / complexityCount
  { e with
    qualityMetrics :=
      { avgQualityScore := updAvg m.avgQualityScore e.generationCount newCount qualityScore.overall
        avgCodeQuality := updAvg m.avgCodeQuality e.generationCount newCount qualityScore.codeQuality
        avgAccessibility :=
          updAvg m.avgAccessibility e.generationCount newCount qualityScore.accessibility
        avgDesignConsistency :=
          updAvg m.avgDesignConsistency e.generationCount newCount qualityScore.designConsistency
        avgPerformance :=
          updAvg m.avgPerformance e.generationCount newCount qualityScore.performance }
    componentTypePerformance := objSet e.componentTypePerformance componentType typeVal
    complexityPerformance := objSet e.complexityPerformance complexityLevel complexityVal
    generationCount := newCount }

def replaceFirst (p : α → Bool) (f : α → α) : List α → List α
  | [] => []
  | x :: xs => if p x then f x :: xs else x :: replaceFirst p f xs

/-- `updateProviderPerformance` with the ledger mutation made explicit:
update the first entry for the provider, or create-and-append a fresh one. -/
def updateProviderPerformance (provider : Provider)
    (componentType complexityLevel : String) (qualityScore : ComponentQualityScore)
    (providerPerformance : List AIProviderPerformance) :
    List AIProviderPerformance :=
  if providerPerformance.any (fun e => e.provider == provider) then
    replaceFirst (fun e => e.provider == provider)
      (updateEntry componentType complexityLevel qualityScore) providerPerformance
  else
    providerPerformance
      ++ [updateEntry componentType complexityLevel qualityScore (freshEntry provider)]

/-- The mutation `updateStrategyPerformance` performs on the found strategy
(`if (userRating)` skips the rating update for a missing or zero rating). -/
def updateStrategyMetrics (qualityScore : ComponentQualityScore)
    (userRating : Option ℚ) (s : PromptStrategy) : PromptStrategy :=
  let sm := s.successMetrics
  let newCount := sm.generationCount + 1
  let avgQ := (sm.avgQualityScore * (sm.generationCount : ℚ)
    + (qualityScore.overall : ℚ)) / (newCount : ℚ)
  let avgR :=
    match userRating with
    | some r =>
        if r ≠ 0 then
          (sm.avgUserRating * (sm.generationCount : ℚ) + r) / (newCount : ℚ)
        else sm.avgUserRating
    | none => sm.avgUserRating
  let successfulGenerations := sm.successRate * ((newCount : ℚ) - 1)
    + (if qualityScore.overall ≥ 70 then 1 else 0)
  { s with
    successMetrics :=
      { avgQualityScore := avgQ
        avgUserRating := avgR
        generationCount := newCount
        successRate := successfulGenerations / (newCount : ℚ) } }

/-- `updateStrategyPerformance` (no-op when the id is absent). -/
def updateStrategyPerformance (strategyId : String)
    (qualityScore : ComponentQualityScore) (userRating : Option ℚ)
    (strategies : List PromptStrategy) : List PromptStrategy :=
  replaceFirst (fun s => s.id == strategyId)
    (updateStrategyMetrics qualityScore userRating) strategies

end AIQualityEnhancement

/-! ## Concrete instances used by counterexamples and witnesses -/

/-- An oracle behaving like a compiler whose parse throws. -/
def tsFailOracle : CodeValidation.TSOracle := fun _ => Except.error "Unexpected token"

/-- Five `<img>` tags without `alt`, one unlabelled `<input>`, a `<div>`
without semantic elements: accessibility score 10. -/
def imgFloorCode : String := "<div><input><img><img><img><img><img>"

/-- `imgFloorCode` with one more `<img>` without `alt` appended. -/
def imgFloorCodeExt : String := "<div><input><img><img><img><img><img><img>"

/-- One `<img>` without `alt`. -/
def imgOneCode : String := "<img>"

/-- Two `<img>` tags without `alt`. -/
def imgTwoCode : String := "<img><img>"

/-- Memoization hooks and an array method together with four inline object
literals (`=\x7b…\x7d` attribute values). -/
def perfComboCode : String :=
  "useMemo useCallback sort( a=\x7b1\x7d b=\x7b2\x7d c=\x7b3\x7d d=\x7b4\x7d"

/-- Memoization hooks and an array method, no inline object literals. -/
def perfHookCode : String := "useMemo useCallback sort("

/-- The quality score used by the repository's own
`updateProviderPerformance` test. -/
def sampleScore : ComponentQualityScore :=
  { codeQuality := 85, accessibility := 80, designConsistency := 90
    performance := 75, overall := 82 }

namespace AIQualityEnhancement

/-- A form/medium generation context with no previous attempts. -/
def formMediumCtx : GenerationContext :=
  { userPrompt := "Create a form", componentType := "form", complexityLevel := "medium"
    previousAttempts := []
    userQualityPreferences :=
      { priorityWeights :=
          { codeQuality := 0.25, accessibility := 0.25
            designConsistency := 0.25, performance := 0.25 }
        minAcceptableScore := 70 } }

/-- Provider with the better `componentTypePerformance.form` (90) but the
worse `complexityPerformance.medium` (70). -/
def provOpenAI : AIProviderPerformance :=
  { provider := Provider.openai
    qualityMetrics :=
      { avgQualityScore := .num 85, avgCodeQuality := .num 80, avgAccessibility := .num 75
        avgDesignConsistency := .num 85, avgPerformance := .num 90 }
    componentTypePerformance := [("form", .num 90)]
    complexityPerformance := [("medium", .num 70)]
    generationCount := 10 }

/-- Provider with the worse `componentTypePerformance.form` (80) but the
better `complexityPerformance.medium` (85). -/
def provAnthropic : AIProviderPerformance :=
  { provider := Provider.anthropic
    qualityMetrics :=
      { avgQualityScore := .num 80, avgCodeQuality := .num 85, avgAccessibility := .num 85
        avgDesignConsistency := .num 75, avgPerformance := .num 80 }
    componentTypePerformance := [("form", .num 80)]
    complexityPerformance := [("medium", .num 85)]
    generationCount := 10 }

/-- A failed attempt (overall 50 < 70) with tied weakest dimensions
codeQuality = accessibility = 50, generated with `accessibility-focused`. -/
def tieAttempt : QualityHistory :=
  { componentId := "c1"
    qualityScore :=
      { codeQuality := 50, accessibility := 50, designConsistency := 80
        performance := 80, overall := 50 }
    promptStrategy := "accessibility-focused", aiProvider := "openai"
    componentType := "form", userRating := none }

/-- Context whose most recent attempt is `tieAttempt`. -/
def attemptTieCtx : GenerationContext :=
  { formMediumCtx with previousAttempts := [tieAttempt] }

/-- A failed attempt (overall 50 < 70) with the unique weakest dimension
accessibility = 40, generated with `quality-first`. -/
def accAttempt : QualityHistory :=
  { componentId := "c2"
    qualityScore :=
      { codeQuality := 80, accessibility := 40, designConsistency := 85
        performance := 90, overall := 50 }
    promptStrategy := "quality-first", aiProvider := "openai"
    componentType := "form", userRating := none }

/-- Context whose most recent attempt is `accAttempt`. -/
def attemptAccCtx : GenerationContext :=
  { formMediumCtx with previousAttempts := [accAttempt] }

def coldMetrics (q : ℚ) : QualityMetrics :=
  { avgQualityScore := .num q, avgCodeQuality := .num 0, avgAccessibility := .num 0
    avgDesignConsistency := .num 0, avgPerformance := .num 0 }

/-- Cold-start entries (`generationCount ≤ 5`); the maximal average 90 is
attained first by the openai entry. -/
def coldVercel : AIProviderPerformance :=
  { provider := Provider.vercel, qualityMetrics := coldMetrics 70
    componentTypePerformance := [], complexityPerformance := [], generationCount := 3 }

def coldOpenAI : AIProviderPerformance :=
  { provider := Provider.openai, qualityMetrics := coldMetrics 90
    componentTypePerformance := [], complexityPerformance := [], generationCount := 2 }

def coldAnthropic : AIProviderPerformance :=
  { provider := Provider.anthropic, qualityMetrics := coldMetrics 90
    componentTypePerformance := [], complexityPerformance := [], generationCount := 1 }

end AIQualityEnhancement

/-! ## Theorems -/

open CodeValidation

theorem jsRoundQ_range (q : ℚ) (h0 : 0 ≤ q) (h1 : q ≤ 100) :
    0 ≤ jsRoundQ q ∧ jsRoundQ q ≤ 100 := by
  unfold jsRoundQ
  constructor
  · exact Int.le_floor.mpr (by push_cast; linarith)
  · have h : (⌊q + 1 / 2⌋ : ℤ) < 101 := Int.floor_lt.mpr (by push_cast; linarith)
    omega

theorem calculateCodeQuality_range (code : String) (ts : TSValidationResult) :
    0 ≤ calculateCodeQuality code ts ∧ calculateCodeQuality code ts ≤ 100 := by
  unfold calculateCodeQuality
  exact ⟨le_max_left _ _, max_le (by norm_num) (min_le_left _ _)⟩

theorem validateAccessibility_score_range (code : String) :
    0 ≤ (validateAccessibility code).score ∧ (validateAccessibility code).score ≤ 100 := by
  simp only [validateAccessibility]
  refine ⟨le_max_left _ _, max_le (by norm_num) ?_⟩
  split_ifs <;> omega

theorem calculateDesignConsistency_range (code : String) :
    0 ≤ calculateDesignConsistency code ∧ calculateDesignConsistency code ≤ 100 := by
  simp only [calculateDesignConsistency]
  refine ⟨le_max_left _ _, max_le (by norm_num) ?_⟩
  split_ifs <;> omega

theorem calculatePerformance_range (code : String) :
    0 ≤ calculatePerformance code ∧ calculatePerformance code ≤ 100 := by
  unfold calculatePerformance
  exact ⟨le_max_left _ _, max_le (by norm_num) (min_le_left _ _)⟩

/-- C1: for every code string (and every behaviour of the TypeScript
compiler), the overall score returned by `validateGeneratedCode` is the
fixed-weight composite `0.4·codeQuality + 0.3·accessibility +
0.2·designConsistency + 0.1·performance`, rounded to the nearest integer
(`Math.round`). -/
theorem C1_overall_is_weighted_composite (oracle : TSOracle) (code : String) :
    (validateGeneratedCode oracle code).qualityScore.overall
      = jsRoundQ (0.4 * ((validateGeneratedCode oracle code).qualityScore.codeQuality : ℚ)
        + 0.3 * ((validateGeneratedCode oracle code).qualityScore.accessibility : ℚ)
        + 0.2 * ((validateGeneratedCode oracle code).qualityScore.designConsistency : ℚ)
        + 0.1 * ((validateGeneratedCode oracle code).qualityScore.performance : ℚ)) := by
  have eov : (validateGeneratedCode oracle code).qualityScore.overall
      = jsRoundQ ((calculateCodeQuality code (validateTypeScript oracle code) : ℚ) * 0.4
        + ((validateAccessibility code).score : ℚ) * 0.3
        + (calculateDesignConsistency code : ℚ) * 0.2
        + (calculatePerformance code : ℚ) * 0.1) := rfl
  have ecq : (validateGeneratedCode oracle code).qualityScore.codeQuality
      = calculateCodeQuality code (validateTypeScript oracle code) := rfl
  have eac : (validateGeneratedCode oracle code).qualityScore.accessibility
      = (validateAccessibility code).score := rfl
  have edc : (validateGeneratedCode oracle code).qualityScore.designConsistency
      = calculateDesignConsistency code := rfl
  have epf : (validateGeneratedCode oracle code).qualityScore.performance
      = calculatePerformance code := rfl
  rw [eov, ecq, eac, edc, epf]
  congr 1
  ring

/-- C2: every dimension score and the overall score returned by
`validateGeneratedCode` lie in the interval [0, 100], for every code string
and every behaviour of the TypeScript compiler. -/
theorem C2_scores_in_range (oracle : TSOracle) (code : String) :
    (0 ≤ (validateGeneratedCode oracle code).qualityScore.codeQuality ∧
      (validateGeneratedCode oracle code).qualityScore.codeQuality ≤ 100) ∧
    (0 ≤ (validateGeneratedCode oracle code).qualityScore.accessibility ∧
      (validateGeneratedCode oracle code).qualityScore.accessibility ≤ 100) ∧
    (0 ≤ (validateGeneratedCode oracle code).qualityScore.designConsistency ∧
      (validateGeneratedCode oracle code).qualityScore.designConsistency ≤ 100) ∧
    (0 ≤ (validateGeneratedCode oracle code).qualityScore.performance ∧
      (validateGeneratedCode oracle code).qualityScore.performance ≤ 100) ∧
    (0 ≤ (validateGeneratedCode oracle code).qualityScore.overall ∧
      (validateGeneratedCode oracle code).qualityScore.overall ≤ 100) := by
  have hcq := calculateCodeQuality_range code (validateTypeScript oracle code)
  have hac := validateAccessibility_score_range code
  have hdc := calculateDesignConsistency_range code
  have hpf := calculatePerformance_range code
  have ecq : (validateGeneratedCode oracle code).qualityScore.codeQuality
      = calculateCodeQuality code (validateTypeScript oracle code) := rfl
  have eac : (validateGeneratedCode oracle code).qualityScore.accessibility
      = (validateAccessibility code).score := rfl
  have edc : (validateGeneratedCode oracle code).qualityScore.designConsistency
      = calculateDesignConsistency code := rfl
  have epf : (validateGeneratedCode oracle code).qualityScore.performance
      = calculatePerformance code := rfl
  have eov : (validateGeneratedCode oracle code).qualityScore.overall
      = jsRoundQ ((calculateCodeQuality code (validateTypeScript oracle code) : ℚ) * 0.4
        + ((validateAccessibility code).score : ℚ) * 0.3
        + (calculateDesignConsistency code : ℚ) * 0.2
        + (calculatePerformance code : ℚ) * 0.1) := rfl
  refine ⟨?_, ?_, ?_, ?_, ?_⟩
  · rw [ecq]; exact hcq
  · rw [eac]; exact hac
  · rw [edc]; exact hdc
  · rw [epf]; exact hpf
  · rw [eov]
    have a0 : (0 : ℚ) ≤ (calculateCodeQuality code (validateTypeScript oracle code) : ℚ) := by
      exact_mod_cast hcq.1
    have a1 : (calculateCodeQuality code (validateTypeScript oracle code) : ℚ) ≤ 100 := by
      exact_mod_cast hcq.2
    have b0 : (0 : ℚ) ≤ ((validateAccessibility code).score : ℚ) := by exact_mod_cast hac.1
    have b1 : ((validateAccessibility code).score : ℚ) ≤ 100 := by exact_mod_cast hac.2
    have c0 : (0 : ℚ) ≤ (calculateDesignConsistency code : ℚ) := by exact_mod_cast hdc.1
    have c1 : (calculateDesignConsistency code : ℚ) ≤ 100 := by exact_mod_cast hdc.2
    have d0 : (0 : ℚ) ≤ (calculatePerformance code : ℚ) := by exact_mod_cast hpf.1
    have d1 : (calculatePerformance code : ℚ) ≤ 100 := by exact_mod_cast hpf.2
    exact jsRoundQ_range _ (by linarith) (by linarith)

/-- C7: `validateTypeScript` never lets a compiler exception escape: on an
exception it returns exactly the one synthetic typescript/error entry
carrying the exception message with `isValid = false`; and in all cases
`isValid` is true iff zero error-severity diagnostics were collected
(warning-severity diagnostics do not make it false). -/
theorem C7_validateTypeScript_contract (oracle : TSOracle) (code : String) :
    (∀ msg, oracle code = Except.error msg →
      validateTypeScript oracle code
        = { errors := [{ type := .typescript,
                         message := "Compilation failed: " ++ msg,
                         severity := .error }],
            isValid := false }) ∧
    ((validateTypeScript oracle code).isValid = true ↔
      (collectedTSErrors oracle code).countP (fun e => e.severity == Severity.error) = 0) := by
  constructor
  · intro msg hmsg
    unfold validateTypeScript collectedTSErrors
    rw [hmsg]
    simp [List.filter]
  · unfold validateTypeScript
    simp [List.countP_eq_length_filter]

/-- Witness for C7 at a concrete throwing oracle. -/
theorem C7_validateTypeScript_contract_witness :
    validateTypeScript tsFailOracle "const x"
      = { errors := [{ type := .typescript,
                       message := "Compilation failed: Unexpected token",
                       severity := .error }],
          isValid := false } :=
  (C7_validateTypeScript_contract tsFailOracle "const x").1 "Unexpected token" rfl

/-- How `max 0 ·` interacts with one further deduction of 15. -/
theorem maxFloorStep (a : Int) :
    (15 ≤ max 0 a → max 0 (a - 15) = max 0 a - 15) ∧
    (max 0 a < 15 → max 0 (a - 15) = 0) := by
  constructor <;> intro h <;>
    rcases max_choice 0 a with hm | hm <;>
    rcases max_choice 0 (a - 15) with hm' | hm' <;> omega

/-- C6 counterexample: on `imgFloorCode` (accessibility score 10, not 0),
appending one more `<img>` without `alt` lowers the score to 0, a decrease of
10 rather than the claimed exact 15. -/
theorem C6_counterexample_floor_not_minus_15 :
    countImgNoAlt imgFloorCodeExt = countImgNoAlt imgFloorCode + 1 ∧
    inputOverLabel imgFloorCodeExt = inputOverLabel imgFloorCode ∧
    missingSemantic imgFloorCodeExt = missingSemantic imgFloorCode ∧
    clickWithoutButton imgFloorCodeExt = clickWithoutButton imgFloorCode ∧
    (validateAccessibility imgFloorCode).score = 10 ∧
    (validateAccessibility imgFloorCodeExt).score = 0 ∧
    (validateAccessibility imgFloorCode).score ≠ 0 ∧
    (validateAccessibility imgFloorCodeExt).score
      ≠ (validateAccessibility imgFloorCode).score - 15 := by decide

/-- C6 (amended): the accessibility validator deducts exactly 15 points per
`<img>` without `alt=` (uncapped, final score floored at 0) and emits one
error-severity accessibility error per occurrence; adding one more `<img>`
without `alt` (the other rule outcomes unchanged) decreases the score by
exactly 15 when the prior score is at least 15, and floors it to 0 when the
prior score is below 15 (which, the other rules deducting 5 or 10 points,
can happen with the prior score still positive). -/
theorem C6_img_alt_deduction_amended (c c' : String)
    (h1 : countImgNoAlt c' = countImgNoAlt c + 1)
    (h2 : inputOverLabel c' = inputOverLabel c)
    (h3 : missingSemantic c' = missingSemantic c)
    (h4 : clickWithoutButton c' = clickWithoutButton c) :
    ((validateAccessibility c).errors.countP
        (fun e => e.severity == Severity.error)) = countImgNoAlt c ∧
    (validateAccessibility c).score
      = max 0 (100 - 15 * (countImgNoAlt c : Int)
        - (if inputOverLabel c then 10 else 0)
        - (if missingSemantic c then 5 else 0)
        - (if clickWithoutButton c then 10 else 0)) ∧
    (15 ≤ (validateAccessibility c).score →
      (validateAccessibility c').score = (validateAccessibility c).score - 15) ∧
    ((validateAccessibility c).score < 15 →
      (validateAccessibility c').score = 0) := by
  have hscore : ∀ s : String, (validateAccessibility s).score
      = max 0 (100 - 15 * (countImgNoAlt s : Int)
        - (if inputOverLabel s then 10 else 0)
        - (if missingSemantic s then 5 else 0)
        - (if clickWithoutButton s then 10 else 0)) := fun s => rfl
  have e' : (validateAccessibility c').score
      = max 0 ((100 - 15 * (countImgNoAlt c : Int)
        - (if inputOverLabel c then 10 else 0)
        - (if missingSemantic c then 5 else 0)
        - (if clickWithoutButton c then 10 else 0)) - 15) := by
    rw [hscore c', h1, h2, h3, h4]
    congr 1
    push_cast
    ring
  have key := maxFloorStep (100 - 15 * (countImgNoAlt c : Int)
    - (if inputOverLabel c then 10 else 0)
    - (if missingSemantic c then 5 else 0)
    - (if clickWithoutButton c then 10 else 0))
  refine ⟨?_, hscore c, ?_, ?_⟩
  · simp only [validateAccessibility, List.countP_append, List.countP_map, countImgNoAlt]
    have e1 : ((fun e => e.severity == Severity.error) ∘ fun _ => imgAltError)
        = fun (_ : List Char) => true := rfl
    rw [e1, List.countP_true]
    have e2 : (formLabelError.severity == Severity.error) = false := rfl
    have e3 : (semanticInfoError.severity == Severity.error) = false := rfl
    have e4 : (buttonWarnError.severity == Severity.error) = false := rfl
    split_ifs <;> simp [List.countP_cons, e2, e3, e4]
  · intro hge
    rw [e', hscore c]
    exact key.1 (by rw [hscore c] at hge; exact hge)
  · intro hlt
    rw [e']
    exact key.2 (by rw [hscore c] at hlt; exact hlt)

/-- Witness for C6 (amended) at `<img>` versus `<img><img>`. -/
theorem C6_img_alt_deduction_amended_witness :
    countImgNoAlt imgTwoCode = countImgNoAlt imgOneCode + 1 ∧
    15 ≤ (validateAccessibility imgOneCode).score ∧
    (validateAccessibility imgTwoCode).score
      = (validateAccessibility imgOneCode).score - 15 :=
  ⟨by decide, by decide,
    (C6_img_alt_deduction_amended imgOneCode imgTwoCode (by decide) (by decide)
      (by decide) (by decide)).2.2.1 (by decide)⟩

/-- C8 counterexample: code containing `useMemo` and `useCallback` and no
`JSON.parse`/`JSON.stringify`, but with more than three inline object
literals and an array-method call: `calculatePerformance` returns 95, not
100. -/
theorem C8_counterexample_not_always_100 :
    hasSubstr perfComboCode "useMemo" = true ∧
    hasSubstr perfComboCode "useCallback" = true ∧
    hasSubstr perfComboCode "JSON.parse" = false ∧
    hasSubstr perfComboCode "JSON.stringify" = false ∧
    calculatePerformance perfComboCode = 95 ∧
    calculatePerformance perfComboCode ≠ 100 := by decide

/-- C8 (amended): for every code string containing both `useMemo` and
`useCallback` and neither `JSON.parse` nor `JSON.stringify`,
`calculatePerformance` returns exactly 100 (the +10 bonus clamped at 100)
provided the code does not combine more than three inline object literals
with an array-method call (`sort(`/`filter(`/`reduce(`); the −5 array-method
deduction is applied regardless of memoization, but is absorbed by the
100-point clamp unless the −10 inline-object deduction also applies. -/
theorem C8_performance_100_amended (code : String)
    (hm : hasSubstr code "useMemo" = true)
    (_hc : hasSubstr code "useCallback" = true)
    (hp : hasSubstr code "JSON.parse" = false)
    (hs : hasSubstr code "JSON.stringify" = false)
    (hno : ¬(countInlineObjects code > 3 ∧
      (hasSubstr code "sort(" || hasSubstr code "filter(" || hasSubstr code "reduce(") = true)) :
    calculatePerformance code = 100 := by
  by_cases h2 : countInlineObjects code > 3
  · have h3 : (hasSubstr code "sort(" || hasSubstr code "filter(" || hasSubstr code "reduce(")
        = false := by
      rcases hb : (hasSubstr code "sort(" || hasSubstr code "filter(" || hasSubstr code "reduce(")
        with _ | _
      · rfl
      · exact absurd ⟨h2, hb⟩ hno
    simp [calculatePerformance, hp, hs, hm, h2, h3]
  · rcases h3 : (hasSubstr code "sort(" || hasSubstr code "filter(" || hasSubstr code "reduce(")
      with _ | _ <;>
    simp [calculatePerformance, hp, hs, hm, h2, h3]

/-- Witness for C8 (amended) at `useMemo useCallback sort(`. -/
theorem C8_performance_100_amended_witness :
    hasSubstr perfHookCode "useMemo" = true ∧
    hasSubstr perfHookCode "sort(" = true ∧
    calculatePerformance perfHookCode = 100 :=
  ⟨by decide, by decide,
    C8_performance_100_amended perfHookCode (by decide) (by decide) (by decide)
      (by decide) (by decide)⟩

/-- C9: whenever the `<input>`-tag count exceeds the `<label>`-tag count
(in particular for every form-type component; the validator applies the rule
to every code string), `validateAccessibility` emits the warning-severity
form-label error exactly once and deducts exactly 10 points, once, not per
input. -/
theorem C9_input_label_one_shot (code : String)
    (h : countTagMatches "<input" code > countTagMatches "<label" code) :
    ((validateAccessibility code).errors.countP (fun e => e == formLabelError)) = 1 ∧
    formLabelError.severity = Severity.warning ∧
    (validateAccessibility code).score
      = max 0 (100 - 15 * (countImgNoAlt code : Int)
        - (if missingSemantic code then 5 else 0)
        - (if clickWithoutButton code then 10 else 0) - 10) := by
  have hb : inputOverLabel code = true := decide_eq_true h
  refine ⟨?_, rfl, ?_⟩
  · simp only [validateAccessibility, List.countP_append, List.countP_map, hb, if_true]
    have e1 : ((fun e => e == formLabelError) ∘ fun _ => imgAltError)
        = fun (_ : List Char) => false := rfl
    have e2 : (formLabelError == formLabelError) = true := rfl
    have e3 : (semanticInfoError == formLabelError) = false := rfl
    have e4 : (buttonWarnError == formLabelError) = false := rfl
    rw [e1, List.countP_false]
    split_ifs <;> simp [List.countP_cons, e2, e3, e4]
  · have hscore : (validateAccessibility code).score
        = max 0 (100 - 15 * (countImgNoAlt code : Int)
          - (if inputOverLabel code then 10 else 0)
          - (if missingSemantic code then 5 else 0)
          - (if clickWithoutButton code then 10 else 0)) := rfl
    rw [hscore, hb]
    have e5 : (if (true = true) then (10 : Int) else 0) = 10 := rfl
    rw [e5]
    congr 1
    ring

/-- Witness for C9 at `<input>`. -/
theorem C9_input_label_one_shot_witness :
    countTagMatches "<input" "<input>" > countTagMatches "<label" "<input>" ∧
    ((validateAccessibility "<input>").errors.countP (fun e => e == formLabelError)) = 1 ∧
    (validateAccessibility "<input>").score = 90 :=
  ⟨by decide, (C9_input_label_one_shot "<input>" (by decide)).1, by decide⟩

open AIQualityEnhancement

theorem JSNum.num_sub (a b : ℚ) : JSNum.num a - JSNum.num b = JSNum.num (a - b) := by
  show JSNum.sub _ _ = _
  simp [JSNum.sub, JSNum.add, JSNum.neg, sub_eq_add_neg]

theorem insertSorted_ne_nil {le : α → α → Bool} {x : α} {l : List α} :
    insertSorted le x l ≠ [] := by
  cases l with
  | nil => exact List.cons_ne_nil _ _
  | cons y ys =>
      rw [insertSorted]
      by_cases hb : le x y = true
      · rw [if_pos hb]; exact List.cons_ne_nil _ _
      · rw [if_neg hb]; exact List.cons_ne_nil _ _

theorem sortedBy_eq_nil_iff {le : α → α → Bool} {l : List α} :
    sortedBy le l = [] ↔ l = [] := by
  cases l with
  | nil => simp [sortedBy]
  | cons x xs =>
      simp only [sortedBy]
      exact ⟨fun h => absurd h insertSorted_ne_nil, fun h => by cases h⟩

theorem mem_insertSorted {le : α → α → Bool} {x y : α} {l : List α} :
    y ∈ insertSorted le x l ↔ y = x ∨ y ∈ l := by
  induction l with
  | nil => simp [insertSorted]
  | cons z zs ih =>
      rw [insertSorted]
      by_cases hb : le x z = true
      · rw [if_pos hb]
        simp only [List.mem_cons]
      · rw [if_neg hb]
        simp only [List.mem_cons, ih]
        tauto

/-- The head of the stable sort is `le`-related to every element, provided
`le` is total and transitive on the list. -/
theorem sortedBy_head_le (le : α → α → Bool) (l : List α)
    (htot : ∀ a ∈ l, ∀ b ∈ l, le a b || le b a)
    (htrans : ∀ a ∈ l, ∀ b ∈ l, ∀ c ∈ l, le a b = true → le b c = true → le a c = true) :
    ∀ h t, sortedBy le l = h :: t → h ∈ l ∧ ∀ x ∈ l, le h x = true := by
  induction l with
  | nil => intro h t hc; cases hc
  | cons x xs ih =>
      intro h t hc
      have htot' : ∀ a ∈ xs, ∀ b ∈ xs, le a b || le b a := fun a ha b hb =>
        htot a (List.mem_cons_of_mem _ ha) b (List.mem_cons_of_mem _ hb)
      have htrans' : ∀ a ∈ xs, ∀ b ∈ xs, ∀ c ∈ xs,
          le a b = true → le b c = true → le a c = true := fun a ha b hb c hcm =>
        htrans a (List.mem_cons_of_mem _ ha) b (List.mem_cons_of_mem _ hb)
          c (List.mem_cons_of_mem _ hcm)
      cases hs : sortedBy le xs with
      | nil =>
          have hxs : xs = [] := sortedBy_eq_nil_iff.mp hs
          subst hxs
          have he : sortedBy le [x] = [x] := rfl
          rw [he] at hc
          injection hc with h1 _
          subst h1
          refine ⟨List.mem_cons_self _ _, ?_⟩
          intro z hz
          rcases List.mem_cons.mp hz with rfl | hz'
          · simpa using htot z (List.mem_cons_self _ _) z (List.mem_cons_self _ _)
          · exact absurd hz' (List.not_mem_nil _)
      | cons y ys =>
          have hy := ih htot' htrans' y ys hs
          have hc' : insertSorted le x (y :: ys) = h :: t := by
            rw [sortedBy, hs] at hc
            exact hc
          by_cases hxy : le x y = true
          · rw [insertSorted, if_pos hxy] at hc'
            injection hc' with h1 _
            subst h1
            refine ⟨List.mem_cons_self _ _, ?_⟩
            intro z hz
            rcases List.mem_cons.mp hz with rfl | hz'
            · simpa using htot z (List.mem_cons_self _ _) z (List.mem_cons_self _ _)
            · exact htrans x (List.mem_cons_self _ _) y (List.mem_cons_of_mem _ hy.1)
                z (List.mem_cons_of_mem _ hz') hxy (hy.2 z hz')
          · rw [insertSorted, if_neg hxy] at hc'
            injection hc' with h1 _
            subst h1
            refine ⟨List.mem_cons_of_mem _ hy.1, ?_⟩
            intro z hz
            rcases List.mem_cons.mp hz with rfl | hz'
            · have hf : le z y = false := by
                cases hb : le z y
                · rfl
                · exact absurd hb hxy
              have htz := htot z (List.mem_cons_self _ _) y (List.mem_cons_of_mem _ hy.1)
              rw [hf, Bool.false_or] at htz
              exact htz
            · exact hy.2 z hz'

unseal Rat.add Rat.sub Rat.mul Rat.inv Rat.ofScientific

/-- C3 (code bug, at the repository's own test input): updating a fresh
provider entry stores `NaN` in `componentTypePerformance.form` — the key
count of the empty map is read before the write, `newCount / 0` gives
`Infinity`, and `0 · (Infinity − 1)` gives `NaN` — while the rolling-average
formula of the claim (and the repository's test, which expects 82) gives
`(0·0 + 82) / 1 = 82`.  The per-dimension metrics and the count do follow
the claimed formula. -/
theorem C3_fresh_update_stores_nan :
    (updateProviderPerformance Provider.openai "form" "medium" sampleScore []).map
        (fun e => (objGet e.componentTypePerformance "form",
          e.qualityMetrics.avgQualityScore, e.generationCount))
      = [(some JSNum.nan, JSNum.num 82, 1)] ∧
    JSNum.nan ≠ JSNum.num 82 := by decide

/-- C4 counterexample: with both providers past the cold start, openai ranks
strictly higher on `componentTypePerformance.form` (90 vs 80), yet the
selector returns anthropic, because the comparator keys on
`complexityPerformance.medium` (70 vs 85) first. -/
theorem C4_counterexample_type_not_primary :
    selectOptimalAIProvider formMediumCtx [provOpenAI, provAnthropic] = Provider.anthropic ∧
    Provider.anthropic ≠ Provider.openai ∧
    objGet provOpenAI.componentTypePerformance "form" = some (JSNum.num 90) ∧
    objGet provAnthropic.componentTypePerformance "form" = some (JSNum.num 80) ∧
    5 < provOpenAI.generationCount ∧
    5 < provAnthropic.generationCount ∧
    (80 : ℚ) < 90 := by decide

/-- C4 (amended): the ranking key of a cold-start survivor is
`complexityPerformance[context.complexityLevel]`, falling back (when the
entry is absent or falsy) to `componentTypePerformance[context.componentType]`,
falling back to the overall average quality — complexity first, not component
type first — and the selector returns the provider of a survivor whose key is
maximal among all survivors. -/
theorem C4_amended_complexity_primary (context : GenerationContext)
    (ledger : List AIProviderPerformance)
    (hne : ledger.filter (fun p => 5 < p.generationCount) ≠ [])
    (hfin : ∀ p ∈ ledger.filter (fun p => 5 < p.generationCount),
      ∃ q : ℚ, sortKey context p = JSNum.num q) :
    ∃ p ∈ ledger.filter (fun p => 5 < p.generationCount),
      selectOptimalAIProvider context ledger = p.provider ∧
      ∀ r ∈ ledger.filter (fun p => 5 < p.generationCount),
        JSNum.ratOf (sortKey context r) ≤ JSNum.ratOf (sortKey context p) := by
  obtain ⟨first, rest, rfl⟩ : ∃ f r, ledger = f :: r := by
    cases ledger with
    | nil => simp at hne
    | cons f r => exact ⟨f, r, rfl⟩
  have hkey : ∀ a ∈ (first :: rest).filter (fun p => 5 < p.generationCount),
      ∀ b ∈ (first :: rest).filter (fun p => 5 < p.generationCount),
      sortLe context a b
        = decide (JSNum.ratOf (sortKey context b) ≤ JSNum.ratOf (sortKey context a)) := by
    intro a ha b hb
    obtain ⟨qa, hqa⟩ := hfin a ha
    obtain ⟨qb, hqb⟩ := hfin b hb
    rw [sortLe, hqa, hqb, JSNum.num_sub]
    simp [JSNum.ratOf, sub_nonpos]
  have htot : ∀ a ∈ (first :: rest).filter (fun p => 5 < p.generationCount),
      ∀ b ∈ (first :: rest).filter (fun p => 5 < p.generationCount),
      sortLe context a b || sortLe context b a := by
    intro a ha b hb
    rw [hkey a ha b hb, hkey b hb a ha]
    rcases le_total (JSNum.ratOf (sortKey context a)) (JSNum.ratOf (sortKey context b))
      with hle | hle <;> simp [hle]
  have htrans : ∀ a ∈ (first :: rest).filter (fun p => 5 < p.generationCount),
      ∀ b ∈ (first :: rest).filter (fun p => 5 < p.generationCount),
      ∀ c ∈ (first :: rest).filter (fun p => 5 < p.generationCount),
      sortLe context a b = true → sortLe context b c = true →
      sortLe context a c = true := by
    intro a ha b hb c hcm h1 h2
    rw [hkey a ha b hb] at h1
    rw [hkey b hb c hcm] at h2
    rw [hkey a ha c hcm]
    exact decide_eq_true (le_trans (of_decide_eq_true h2) (of_decide_eq_true h1))
  cases hs : sortedBy (sortLe context) ((first :: rest).filter (fun p => 5 < p.generationCount))
    with
  | nil => exact absurd (sortedBy_eq_nil_iff.mp hs) hne
  | cons p t =>
      have hp := sortedBy_head_le (sortLe context)
        ((first :: rest).filter (fun p => 5 < p.generationCount)) htot htrans p t hs
      refine ⟨p, hp.1, ?_, ?_⟩
      · rw [selectOptimalAIProvider, hs]
      · intro r hr
        have hple := hp.2 r hr
        rw [hkey p hp.1 r hr] at hple
        exact of_decide_eq_true hple

/-- Witness for C4 (amended) at the two-provider ledger. -/
theorem C4_amended_complexity_primary_witness :
    ([provOpenAI, provAnthropic].filter (fun p => 5 < p.generationCount) ≠ []) ∧
    (∃ p ∈ [provOpenAI, provAnthropic].filter (fun p => 5 < p.generationCount),
      selectOptimalAIProvider formMediumCtx [provOpenAI, provAnthropic] = p.provider ∧
      ∀ r ∈ [provOpenAI, provAnthropic].filter (fun p => 5 < p.generationCount),
        JSNum.ratOf (sortKey formMediumCtx r) ≤ JSNum.ratOf (sortKey formMediumCtx p)) :=
  ⟨by decide,
    C4_amended_complexity_primary formMediumCtx [provOpenAI, provAnthropic] (by decide)
      (by
        intro p hp
        have hfl : [provOpenAI, provAnthropic].filter (fun p => 5 < p.generationCount)
            = [provOpenAI, provAnthropic] := by decide
        rw [hfl] at hp
        rcases List.mem_cons.mp hp with rfl | hp'
        · exact ⟨70, by decide⟩
        · rcases List.mem_cons.mp hp' with rfl | hp''
          · exact ⟨85, by decide⟩
          · exact absurd hp'' (List.not_mem_nil _))⟩

/-- C5 counterexample: the most recent attempt (overall 50 < 70) has tied
weakest dimensions codeQuality = accessibility = 50 and was generated with
`accessibility-focused`; suitable alternatives exist, and the claimed
first-wins tie-break would demand `quality-first` and forbid repeating the
just-used strategy — yet the selector returns `accessibility-focused`
(the tie resolves to the later dimension, and the mapped strategy is looked
up in the full catalog without excluding the just-used one). -/
theorem C5_counterexample_tie_and_repeat :
    (selectOptimalPromptStrategy attemptTieCtx PROMPT_STRATEGIES).map (fun s => s.id)
      = some "accessibility-focused" ∧
    (attemptTieCtx.previousAttempts.getLast?.map (fun a => a.promptStrategy))
      = some "accessibility-focused" ∧
    ((PROMPT_STRATEGIES.filter (strategyIsSuitable attemptTieCtx)).filter
        (fun s => s.id != "accessibility-focused")) ≠ [] ∧
    tieAttempt.qualityScore.codeQuality = tieAttempt.qualityScore.accessibility ∧
    ("accessibility-focused" : String) ≠ "quality-first" := by decide

/-- C5 (amended): when `previousAttempts` is non-empty, the most recent
attempt's overall score is below `minAcceptableScore`, the suitable set is
non-empty and a suitable alternative to the just-used strategy exists, the
selector computes the weakest dimension of that attempt with ties resolved in
favour of the **last** dimension in the fixed order (codeQuality,
accessibility, designConsistency, performance), maps it deterministically
(codeQuality→quality-first, accessibility→accessibility-focused,
designConsistency→design-consistency, performance→performance-optimized),
and returns the first catalog strategy with that id — even when that is the
strategy used in the most recent attempt. -/
theorem C5_amended_last_wins_tiebreak (context : GenerationContext)
    (strategies : List PromptStrategy) (lastAttempt : QualityHistory) (s : PromptStrategy)
    (hlast : context.previousAttempts.getLast? = some lastAttempt)
    (hbad : (lastAttempt.qualityScore.overall : ℚ)
      < context.userQualityPreferences.minAcceptableScore)
    (hsuit : strategies.filter (strategyIsSuitable context) ≠ [])
    (halt : (strategies.filter (strategyIsSuitable context)).filter
      (fun t => t.id != lastAttempt.promptStrategy) ≠ [])
    (hfind : strategies.find? (fun t =>
      t.id == priorityStrategyMap (lowestDimension lastAttempt.qualityScore)) = some s) :
    selectOptimalPromptStrategy context strategies = some s ∧
    (∀ q : ComponentQualityScore,
      lowestDimension q =
        if q.performance ≤ min (min q.codeQuality q.accessibility) q.designConsistency then
          Dimension.performance
        else if q.designConsistency ≤ min q.codeQuality q.accessibility then
          Dimension.designConsistency
        else if q.accessibility ≤ q.codeQuality then Dimension.accessibility
        else Dimension.codeQuality) := by
  constructor
  · have hsuitb : (strategies.filter (strategyIsSuitable context)).isEmpty = false := by
      rcases hb : (strategies.filter (strategyIsSuitable context)).isEmpty with _ | _
      · rfl
      · exact absurd (List.isEmpty_iff.mp hb) hsuit
    have haltb : ((strategies.filter (strategyIsSuitable context)).filter
        (fun t => t.id != lastAttempt.promptStrategy)).isEmpty = false := by
      rcases hb : ((strategies.filter (strategyIsSuitable context)).filter
          (fun t => t.id != lastAttempt.promptStrategy)).isEmpty with _ | _
      · exact hb
      · exact absurd (List.isEmpty_iff.mp hb) halt
    rw [selectOptimalPromptStrategy, hlast]
    rw [hsuitb]
    simp only [Bool.false_eq_true, if_false]
    rw [if_pos hbad, haltb]
    simp only [Bool.false_eq_true, if_false]
    rw [hfind]
  · intro q
    unfold lowestDimension
    simp only [List.foldl]
    by_cases h1 : dimScore q Dimension.codeQuality < dimScore q Dimension.accessibility
    · rw [if_pos h1]
      by_cases h2 : dimScore q Dimension.codeQuality < dimScore q Dimension.designConsistency
      · rw [if_pos h2]
        by_cases h3 : dimScore q Dimension.codeQuality < dimScore q Dimension.performance
        · rw [if_pos h3]
          simp only [dimScore] at h1 h2 h3
          split_ifs <;> first | rfl | (exfalso; omega)
        · rw [if_neg h3]
          simp only [dimScore] at h1 h2 h3
          split_ifs <;> first | rfl | (exfalso; omega)
      · rw [if_neg h2]
        by_cases h3 : dimScore q Dimension.designConsistency < dimScore q Dimension.performance
        · rw [if_pos h3]
          simp only [dimScore] at h1 h2 h3
          split_ifs <;> first | rfl | (exfalso; omega)
        · rw [if_neg h3]
          simp only [dimScore] at h1 h2 h3
          split_ifs <;> first | rfl | (exfalso; omega)
    · rw [if_neg h1]
      by_cases h2 : dimScore q Dimension.accessibility < dimScore q Dimension.designConsistency
      · rw [if_pos h2]
        by_cases h3 : dimScore q Dimension.accessibility < dimScore q Dimension.performance
        · rw [if_pos h3]
          simp only [dimScore] at h1 h2 h3
          split_ifs <;> first | rfl | (exfalso; omega)
        · rw [if_neg h3]
          simp only [dimScore] at h1 h2 h3
          split_ifs <;> first | rfl | (exfalso; omega)
      · rw [if_neg h2]
        by_cases h3 : dimScore q Dimension.designConsistency < dimScore q Dimension.performance
        · rw [if_pos h3]
          simp only [dimScore] at h1 h2 h3
          split_ifs <;> first | rfl | (exfalso; omega)
        · rw [if_neg h3]
          simp only [dimScore] at h1 h2 h3
          split_ifs <;> first | rfl | (exfalso; omega)

/-- Witness for C5 (amended): the last attempt used `quality-first` and its
unique weakest dimension is accessibility, so the selector returns
`accessibility-focused`. -/
theorem C5_amended_last_wins_tiebreak_witness :
    attemptAccCtx.previousAttempts.getLast? = some accAttempt ∧
    selectOptimalPromptStrategy attemptAccCtx PROMPT_STRATEGIES
      = some accessibilityFocusedStrategy :=
  ⟨by decide,
    (C5_amended_last_wins_tiebreak attemptAccCtx PROMPT_STRATEGIES accAttempt
      accessibilityFocusedStrategy (by decide) (by norm_num [accAttempt, attemptAccCtx, formMediumCtx])
      (by decide) (by decide) (by decide)).1⟩

/-- The fallback `reduce` keeps the first entry attaining the maximal average:
either it returns the accumulator (and nothing beats it), or it returns a
list element strictly above the accumulator and everything before it, with
everything after it no higher. -/
theorem reduceBest_split (l : List AIQualityEnhancement.AIProviderPerformance) :
    ∀ acc : AIQualityEnhancement.AIProviderPerformance,
    (∃ q : ℚ, acc.qualityMetrics.avgQualityScore = JSNum.num q) →
    (∀ x ∈ l, ∃ q : ℚ, x.qualityMetrics.avgQualityScore = JSNum.num q) →
    (reduceBest acc l = acc ∧ ∀ x ∈ l,
      JSNum.ratOf x.qualityMetrics.avgQualityScore
        ≤ JSNum.ratOf acc.qualityMetrics.avgQualityScore) ∨
    (∃ l1 m l2, l = l1 ++ m :: l2 ∧ reduceBest acc l = m ∧
      JSNum.ratOf acc.qualityMetrics.avgQualityScore
        < JSNum.ratOf m.qualityMetrics.avgQualityScore ∧
      (∀ x ∈ l1, JSNum.ratOf x.qualityMetrics.avgQualityScore
        < JSNum.ratOf m.qualityMetrics.avgQualityScore) ∧
      (∀ x ∈ l2, JSNum.ratOf x.qualityMetrics.avgQualityScore
        ≤ JSNum.ratOf m.qualityMetrics.avgQualityScore)) := by
  induction l with
  | nil =>
      intro acc _ _
      left
      exact ⟨rfl, by simp⟩
  | cons x rest ih =>
      intro acc hacc hl
      obtain ⟨qa, hqa⟩ := hacc
      obtain ⟨qx, hqx⟩ := hl x (List.mem_cons_self _ _)
      have hrest : ∀ y ∈ rest, ∃ q : ℚ, y.qualityMetrics.avgQualityScore = JSNum.num q :=
        fun y hy => hl y (List.mem_cons_of_mem _ hy)
      have hgtb : JSNum.gtb x.qualityMetrics.avgQualityScore acc.qualityMetrics.avgQualityScore
          = decide (qa < qx) := by rw [hqa, hqx]; rfl
      by_cases hlt : qa < qx
      · have hif : (if JSNum.gtb x.qualityMetrics.avgQualityScore
            acc.qualityMetrics.avgQualityScore then x else acc) = x := by
          rw [hgtb, decide_eq_true hlt]
          rfl
        have hred : reduceBest acc (x :: rest) = reduceBest x rest := by
          rw [reduceBest, hif]
        have hax : JSNum.ratOf acc.qualityMetrics.avgQualityScore
            < JSNum.ratOf x.qualityMetrics.avgQualityScore := by
          rw [hqa, hqx]; exact hlt
        rcases ih x ⟨qx, hqx⟩ hrest with ⟨he, hall⟩ | ⟨l1, m, l2, hsplit, he, hxm, h1, h2⟩
        · right
          refine ⟨[], x, rest, by simp, by rw [hred, he], hax, by simp, hall⟩
        · right
          refine ⟨x :: l1, m, l2, by simp [hsplit], by rw [hred, he],
            lt_trans hax hxm, ?_, h2⟩
          intro z hz
          rcases List.mem_cons.mp hz with rfl | hz'
          · exact hxm
          · exact h1 z hz'
      · have hif : (if JSNum.gtb x.qualityMetrics.avgQualityScore
            acc.qualityMetrics.avgQualityScore then x else acc) = acc := by
          rw [hgtb, decide_eq_false hlt]
          rfl
        have hred : reduceBest acc (x :: rest) = reduceBest acc rest := by
          rw [reduceBest, hif]
        have hxa : JSNum.ratOf x.qualityMetrics.avgQualityScore
            ≤ JSNum.ratOf acc.qualityMetrics.avgQualityScore := by
          rw [hqa, hqx]; exact not_lt.mp hlt
        rcases ih acc ⟨qa, hqa⟩ hrest with ⟨he, hall⟩ | ⟨l1, m, l2, hsplit, he, ham, h1, h2⟩
        · left
          refine ⟨by rw [hred, he], ?_⟩
          intro z hz
          rcases List.mem_cons.mp hz with rfl | hz'
          · exact hxa
          · exact hall z hz'
        · right
          refine ⟨x :: l1, m, l2, by simp [hsplit], by rw [hred, he], ham, ?_, h2⟩
          intro z hz
          rcases List.mem_cons.mp hz with rfl | hz'
          · exact lt_of_le_of_lt hxa ham
          · exact h1 z hz'

/-- C10: on a non-empty ledger in which every provider has
`generationCount ≤ 5` (so the cold-start filter removes everyone), the
selector totalises without raising and returns the provider with the
strictly highest overall `avgQualityScore`, the earliest-listed one on ties:
the returned provider splits the ledger as `l1 ++ p :: l2` with everything
no higher than `p` and everything before `p` strictly lower. -/
theorem C10_cold_start_fallback (context : AIQualityEnhancement.GenerationContext)
    (ledger : List AIQualityEnhancement.AIProviderPerformance)
    (hne : ledger ≠ [])
    (hcold : ∀ p ∈ ledger, p.generationCount ≤ 5)
    (hfin : ∀ p ∈ ledger, ∃ q : ℚ, p.qualityMetrics.avgQualityScore = JSNum.num q) :
    ∃ l1 p l2, ledger = l1 ++ p :: l2 ∧
      selectOptimalAIProvider context ledger = p.provider ∧
      (∀ r ∈ ledger, JSNum.ratOf r.qualityMetrics.avgQualityScore
        ≤ JSNum.ratOf p.qualityMetrics.avgQualityScore) ∧
      (∀ r ∈ l1, JSNum.ratOf r.qualityMetrics.avgQualityScore
        < JSNum.ratOf p.qualityMetrics.avgQualityScore) := by
  obtain ⟨first, rest, rfl⟩ : ∃ f r, ledger = f :: r := by
    cases ledger with
    | nil => exact absurd rfl hne
    | cons f r => exact ⟨f, r, rfl⟩
  have hfilter : (first :: rest).filter (fun p => 5 < p.generationCount) = [] := by
    rw [List.filter_eq_nil_iff]
    intro a ha
    simpa using Nat.not_lt.mpr (hcold a ha)
  have hsel : selectOptimalAIProvider context (first :: rest)
      = (reduceBest first rest).provider := by
    rw [selectOptimalAIProvider, hfilter]
    rfl
  rcases reduceBest_split rest first (hfin first (List.mem_cons_self _ _))
      (fun y hy => hfin y (List.mem_cons_of_mem _ hy))
    with ⟨he, hall⟩ | ⟨l1, m, l2, hsplit, he, ham, h1, h2⟩
  · refine ⟨[], first, rest, by simp, by rw [hsel, he], ?_, by simp⟩
    intro r hr
    rcases List.mem_cons.mp hr with rfl | hr'
    · exact le_refl _
    · exact hall r hr'
  · refine ⟨first :: l1, m, l2, by simp [hsplit], by rw [hsel, he], ?_, ?_⟩
    · intro r hr
      rcases List.mem_cons.mp hr with rfl | hr'
      · exact le_of_lt ham
      · rw [hsplit] at hr'
        rcases List.mem_append.mp hr' with hm | hm
        · exact le_of_lt (h1 r hm)
        · rcases List.mem_cons.mp hm with rfl | hm'
          · exact le_refl _
          · exact h2 r hm'
    · intro r hr
      rcases List.mem_cons.mp hr with rfl | hr'
      · exact ham
      · exact h1 r hr'

/-- Witness for C10 at a three-entry all-cold ledger: the maximum average 90
is attained first by the openai entry, which is returned. -/
theorem C10_cold_start_fallback_witness :
    ([coldVercel, coldOpenAI, coldAnthropic]
        : List AIQualityEnhancement.AIProviderPerformance) ≠ [] ∧
    selectOptimalAIProvider formMediumCtx [coldVercel, coldOpenAI, coldAnthropic]
      = Provider.openai ∧
    (∃ l1 p l2, ([coldVercel, coldOpenAI, coldAnthropic]
        : List AIQualityEnhancement.AIProviderPerformance) = l1 ++ p :: l2 ∧
      selectOptimalAIProvider formMediumCtx [coldVercel, coldOpenAI, coldAnthropic]
        = p.provider ∧
      (∀ r ∈ ([coldVercel, coldOpenAI, coldAnthropic]
          : List AIQualityEnhancement.AIProviderPerformance),
        JSNum.ratOf r.qualityMetrics.avgQualityScore
          ≤ JSNum.ratOf p.qualityMetrics.avgQualityScore) ∧
      (∀ r ∈ l1, JSNum.ratOf r.qualityMetrics.avgQualityScore
        < JSNum.ratOf p.qualityMetrics.avgQualityScore)) :=
  ⟨by decide, by decide,
    C10_cold_start_fallback formMediumCtx [coldVercel, coldOpenAI, coldAnthropic]
      (by decide) (by decide)
      (by
        intro p hp
        have hm := List.mem_cons.mp hp
        rcases hm with rfl | hm'
        · exact ⟨70, rfl⟩
        · rcases List.mem_cons.mp hm' with rfl | hm''
          · exact ⟨90, rfl⟩
          · rcases List.mem_cons.mp hm'' with rfl | hm'''
            · exact ⟨90, rfl⟩
            · exact absurd hm''' (List.not_mem_nil _))⟩
